import Mathlib

/-!
Shallow embedding of the edge-extraction and graph-construction pipeline of
the `gh-graph-explorer` repository, together with theorems settling the
specification claims about it.

Conventions of the embedding:
* Python dictionaries with a fixed field contract become Lean structures whose
  fields are `Option String` — `none` models an absent key (the source reads
  every field through `dict.get`, which defaults to `None`).  A JSON `null`
  value is likewise modelled as `none`.
* Python truthiness on strings (`if not source`) is modelled by `truthy`:
  a value is truthy iff it is `some s` with `s ≠ ""`.
* Generators become lists; a generator that can raise mid-iteration becomes a
  pair `(produced prefix, Option errorMessage)`.
* The text scanned for mentions is restricted to ASCII: `\w` of the Python
  regex is modelled as ASCII letters, digits and underscore.
-/

namespace GH

/-! ### Mention extraction (`EdgeFactory.extract_mentioned_users`)

The source scans free text with `re.findall(r"(?<!\w)@([\w\/]+)", text)`:
an `@` not preceded by a word character, followed by a maximal nonempty run
of word characters or `/`; each match contributes its group (the run after
`@`).  `scanMentions` performs the same left-to-right, non-overlapping scan,
threading the previously consumed character for the look-behind. -/

def isWordChar (c : Char) : Bool :=
  c.isAlpha || c.isDigit || c = '_'

def isMentionChar (c : Char) : Bool :=
  isWordChar c || c = '/'

/-- The `(?<!\w)` look-behind: succeeds at the start of the text or when the
previous character is not a word character. -/
def prevOk : Option Char → Bool
  | none => true
  | some c => !isWordChar c

/-- The scan, written with a structural fuel argument (any fuel at least the
list's length gives the scan's value; each step consumes at least one
character). -/
def scanMentions : Nat → Option Char → List Char → List String
  | 0, _, _ => []
  | _, _, [] => []
  | fuel + 1, prev, c :: rest =>
    if c = '@' && prevOk prev then
      match rest.takeWhile isMentionChar with
      | [] => scanMentions fuel (some c) rest
      | m :: ms =>
        (m :: ms).asString ::
          scanMentions fuel (some ((m :: ms).getLast (by simp)))
            (rest.drop (m :: ms).length)
    else
      scanMentions fuel (some c) rest

def extract_mentioned_users (text : String) : List String :=
  scanMentions text.toList.length none text.toList

/-! ### `Edge` (src/src/edge.py) -/

structure Edge where
  type : Option String
  title : Option String
  created_at : Option String
  login : Option String
  url : Option String
  parent_url : Option String
deriving Repr, DecidableEq

/-- Python truthiness of an optional string value. -/
def truthy : Option String → Bool
  | none => false
  | some s => s ≠ ""

def Edge.source (e : Edge) : Option String := e.login

/-- `target` returns `parent_url` when it is truthy, else `url`. -/
def Edge.target (e : Edge) : Option String :=
  if truthy e.parent_url then e.parent_url else e.url

/-- A persisted relationship record: an association list of scalar fields
(Python dict, keys unique and in insertion order). -/
abbrev Rel := List (String × Option String)

/-- `rel.get(k)`: `none` both when the key is absent and when it maps to null. -/
def relGet (rel : Rel) (k : String) : Option String :=
  match rel.lookup k with
  | none => none
  | some v => v

def Edge.to_row (e : Edge) : Rel :=
  [("source", e.source), ("target", e.target), ("type", e.type),
   ("title", e.title), ("created_at", e.created_at), ("url", e.url)]

/-! ### Activity payload (input of `EdgeFactory`, src/src/edge_factory.py)

Each category slice of the fetched payload is either a well-typed list of
items or `malformed` — a value of the wrong shape, on which the source's
attribute accesses raise a `TypeError`/`AttributeError`.  A category key that
is absent defaults to the empty list in the source
(`data.get(cat, {}).get(inner, [])`) and is modelled as `ok []`. -/

inductive Slice (α : Type) where
  | malformed
  | ok (items : List α)
deriving Repr, DecidableEq

def Slice.items {α : Type} : Slice α → List α
  | .malformed => []
  | .ok l => l

def Slice.isOk {α : Type} : Slice α → Bool
  | .malformed => false
  | .ok _ => true

structure Author where
  login : Option String
deriving Repr, DecidableEq

/-- A created issue / PR / discussion node: `title`, `url`, `createdAt`,
`bodyText`, each read with `.get` (so absent/null is `none`). -/
structure IssueNode where
  title : Option String
  url : Option String
  createdAt : Option String
  bodyText : Option String
deriving Repr, DecidableEq

def IssueNode.empty : IssueNode := ⟨none, none, none, none⟩

structure CommentNode where
  title : Option String
  url : Option String
  createdAt : Option String
  bodyText : Option String
  author : Option Author
deriving Repr, DecidableEq

/-- A parent issue / discussion holding a nested comment list
(`x.get("comments", {}).get("nodes", [])`, absent modelled as `[]`). -/
structure ThreadNode where
  title : Option String
  url : Option String
  comments : List CommentNode
deriving Repr, DecidableEq

structure ReviewNode where
  state : Option String
  createdAt : Option String
  url : Option String
  bodyText : Option String
deriving Repr, DecidableEq

/-- A PR of `prReviewsAndCommits` with its nested review list
(`pr.get("reviews", {}).get("nodes", [])`, absent modelled as `[]`). -/
structure PRNode where
  title : Option String
  url : Option String
  reviews : List ReviewNode
deriving Repr, DecidableEq

def PRNode.empty : PRNode := ⟨none, none, []⟩

/-- The nested fetch result.  `issuesCreated`, `prsCreated` and
`prReviewsAndCommits` nest their items under `edges[].node` — the element
type `Option _` is the wrapper's `node` field, `none` when the wrapper lacks
it (`edge.get("node", {})`).  The other categories list items directly under
`nodes[]`. -/
structure Payload where
  issuesCreated : Slice (Option IssueNode)
  issueComments : Slice ThreadNode
  prsCreated : Slice (Option IssueNode)
  prReviewsAndCommits : Slice (Option PRNode)
  discussionsCreated : Slice IssueNode
  discussionComments : Slice ThreadNode
deriving Repr, DecidableEq

def Payload.allOk (d : Payload) : Bool :=
  d.issuesCreated.isOk && d.issueComments.isOk && d.prsCreated.isOk &&
    d.prReviewsAndCommits.isOk && d.discussionsCreated.isOk &&
    d.discussionComments.isOk

def Payload.empty : Payload :=
  ⟨.ok [], .ok [], .ok [], .ok [], .ok [], .ok []⟩

/-! ### `EdgeFactory` (src/src/edge_factory.py)

Each `process_*` generator becomes a function returning a `Run`: the list of
edges produced before the generator either finishes (`none`) or raises
(`some msg`).  Items of a well-typed slice cannot raise, so only a
`malformed` slice produces an error; it produces it before yielding
anything, because the malformed access (`.get(...)` on a wrong-shaped slice)
happens when the first item is requested. -/

abbrev Run := List Edge × Option String

/-- Body of the `issuesCreated` loop for one wrapper element. -/
def issueItemEdges (username : String) (w : Option IssueNode) : List Edge :=
  let issue := w.getD IssueNode.empty
  ⟨some "issue_created", issue.title, issue.createdAt, some username,
    issue.url, none⟩ ::
  (extract_mentioned_users (issue.bodyText.getD "")).map (fun m =>
    ⟨some "issue_mentioned", issue.title, issue.createdAt, some m,
      issue.url, none⟩)

def process_issues (s : Slice (Option IssueNode)) (username : String) : Run :=
  match s with
  | .malformed => ([], some "TypeError")
  | .ok items => (items.flatMap (issueItemEdges username), none)

/-- Body of the `issueComments` loops for one parent issue and one comment.
The source's guard `if issue.get("comments", {}).get("nodes"):` only skips
the empty comment list, which the flat map does as well. -/
def issueCommentEdges (issue : ThreadNode) (c : CommentNode) : List Edge :=
  ⟨some "issue_comment", issue.title, c.createdAt,
    (c.author.getD ⟨none⟩).login, c.url, issue.url⟩ ::
  (extract_mentioned_users (c.bodyText.getD "")).map (fun m =>
    ⟨some "issue_comment_mentioned", c.title, c.createdAt, some m,
      c.url, issue.url⟩)

def process_issue_comments (s : Slice ThreadNode) : Run :=
  match s with
  | .malformed => ([], some "TypeError")
  | .ok items =>
    (items.flatMap (fun issue => issue.comments.flatMap (issueCommentEdges issue)),
     none)

/-- Body of the `prsCreated` loop (source name `proccess_prs` kept, typo and
all).  The guard `if self.data.get("prsCreated", {}).get("edges"):` only
skips the empty list. -/
def prItemEdges (username : String) (w : Option IssueNode) : List Edge :=
  let pr := w.getD IssueNode.empty
  ⟨some "pr_created", pr.title, pr.createdAt, some username, pr.url, none⟩ ::
  (extract_mentioned_users (pr.bodyText.getD "")).map (fun m =>
    ⟨some "pr_mentioned", pr.title, pr.createdAt, some m, pr.url, none⟩)

def proccess_prs (s : Slice (Option IssueNode)) (username : String) : Run :=
  match s with
  | .malformed => ([], some "TypeError")
  | .ok items => (items.flatMap (prItemEdges username), none)

/-- Body of the `prReviewsAndCommits` loops for one PR and one review. -/
def prReviewEdges (username : String) (pr : PRNode) (review : ReviewNode) :
    List Edge :=
  ⟨some ("pr_review_" ++ (review.state.getD "").toLower), pr.title,
    review.createdAt, some username, review.url, pr.url⟩ ::
  (extract_mentioned_users (review.bodyText.getD "")).map (fun m =>
    ⟨some "pr_comment_mentioned", pr.title, review.createdAt, some m,
      review.url, pr.url⟩)

def process_pr_reviews (s : Slice (Option PRNode)) (username : String) : Run :=
  match s with
  | .malformed => ([], some "TypeError")
  | .ok items =>
    (items.flatMap (fun w =>
      let pr := w.getD PRNode.empty
      pr.reviews.flatMap (prReviewEdges username pr)),
     none)

/-- Body of the `discussionsCreated` loop (guard skips only the empty list). -/
def discussionItemEdges (username : String) (d : IssueNode) : List Edge :=
  ⟨some "discussion_created", d.title, d.createdAt, some username,
    d.url, none⟩ ::
  (extract_mentioned_users (d.bodyText.getD "")).map (fun m =>
    ⟨some "discussion_mentioned", d.title, d.createdAt, some m, d.url, none⟩)

def process_discussions (s : Slice IssueNode) (username : String) : Run :=
  match s with
  | .malformed => ([], some "TypeError")
  | .ok items => (items.flatMap (discussionItemEdges username), none)

/-- Body of the `discussionComments` loops for one discussion and comment. -/
def discussionCommentEdges (d : ThreadNode) (c : CommentNode) : List Edge :=
  ⟨some "discussion_comment", d.title, c.createdAt,
    (c.author.getD ⟨none⟩).login, c.url, d.url⟩ ::
  (extract_mentioned_users (c.bodyText.getD "")).map (fun m =>
    ⟨some "discussion_comment_mentioned", d.title, c.createdAt, some m,
      c.url, d.url⟩)

def process_discussion_comments (s : Slice ThreadNode) : Run :=
  match s with
  | .malformed => ([], some "TypeError")
  | .ok items =>
    (items.flatMap (fun d => d.comments.flatMap (discussionCommentEdges d)),
     none)

/-- `yield from a` followed by the rest: once a generator raises, the rest is
never entered. -/
def seqRun (a b : Run) : Run :=
  match a with
  | (es, none) => (es ++ b.1, b.2)
  | (es, some m) => (es, some m)

/-- `EdgeFactory.generate_edges`: the six category generators chained with
`yield from`, in source order. -/
def generate_edges (d : Payload) (username : String) : Run :=
  seqRun (process_issues d.issuesCreated username)
    (seqRun (process_issue_comments d.issueComments)
      (seqRun (proccess_prs d.prsCreated username)
        (seqRun (process_pr_reviews d.prReviewsAndCommits username)
          (seqRun (process_discussions d.discussionsCreated username)
            (process_discussion_comments d.discussionComments)))))

/-- `datetime.fromisoformat(iso.replace("Z", "+00:00"))`: the parsed datetime
is modelled by its normalised ISO string, which is all the factory stores. -/
def parseIso (s : String) : String := s.replace "Z" "+00:00"

structure EdgeFactory where
  data : Payload
  username : String
  since_date : Option String
  until_date : Option String
deriving Repr, DecidableEq

/-- `EdgeFactory.__init__`: stores the payload and username and parses the
two optional date bounds. -/
def EdgeFactory.init (data : Payload) (username : String)
    (since_iso until_iso : Option String) : EdgeFactory :=
  ⟨data, username, since_iso.map parseIso, until_iso.map parseIso⟩

def EdgeFactory.generate_edges (f : EdgeFactory) : Run :=
  GH.generate_edges f.data f.username

/-! ### Graph builder (`Loader.create_graph`, src/src/load_strategies/base.py)

`networkx.MultiGraph` is modelled by two insertion-ordered lists: the node
list (each identifier once, with its `bipartite` attribute) and the edge
list (one entry per `add_edge` call, so parallel edges are kept). -/

structure MGraph where
  nodes : List (String × Nat)
  edges : List (String × String × Rel)
deriving Repr, DecidableEq

/-- `G.add_node(n, bipartite=b)`: re-adding an existing node keeps its
position and overwrites the attribute. -/
def addNode (g : MGraph) (n : String) (b : Nat) : MGraph :=
  if (g.nodes.lookup n).isSome then
    ⟨g.nodes.map (fun p => if p.1 = n then (n, b) else p), g.edges⟩
  else
    ⟨g.nodes ++ [(n, b)], g.edges⟩

/-- `G.add_edge(u, v, **attrs)` for endpoints already added as nodes, the
only way `create_graph` calls it. -/
def addEdge (g : MGraph) (u v : String) (attrs : Rel) : MGraph :=
  ⟨g.nodes, g.edges ++ [(u, v, attrs)]⟩

def get_bipartite (node : String) : Nat :=
  if node.startsWith "https://" then 0 else 1

/-- `{k: v for k, v in rel.items() if k not in ("source", "target")}`. -/
def stripST (rel : Rel) : Rel :=
  rel.filter (fun kv => kv.1 ≠ "source" && kv.1 ≠ "target")

/-- One iteration of the `create_graph` loop. -/
def graphStep (g : MGraph) (rel : Rel) : MGraph :=
  if truthy (relGet rel "source") && truthy (relGet rel "target") then
    let source := (relGet rel "source").getD ""
    let target := (relGet rel "target").getD ""
    addEdge
      (addNode (addNode g source (get_bipartite source))
        target (get_bipartite target))
      source target (stripST rel)
  else g

def create_graph (rels : List Rel) : MGraph :=
  rels.foldl graphStep ⟨[], []⟩

/-- The parallel edges the multigraph holds between an (unordered) node
pair. -/
def edgesBetween (g : MGraph) (u v : String) : List (String × String × Rel) :=
  g.edges.filter (fun e => (e.1 = u && e.2.1 = v) || (e.1 = v && e.2.1 = u))

/-! ### `GraphAnalyzer.get_edges` (src/src/graph_analyzer.py)

The method returns `[e for e in nx.generate_edgelist(self.graph)]`;
`networkx.generate_edgelist` with its defaults yields, per edge, the string
`f"{u} {v} {d}"` where `d` is the Python `repr` of the attribute dict. -/

def pyVal : Option String → String
  | none => "None"
  | some s => "\x27" ++ s ++ "\x27"

def pyDictStr (rel : Rel) : String :=
  "\x7b" ++
    String.intercalate ", "
      (rel.map (fun kv => "\x27" ++ kv.1 ++ "\x27: " ++ pyVal kv.2)) ++
  "\x7d"

def analyzer_get_edges (g : MGraph) : List String :=
  g.edges.map (fun e => e.1 ++ " " ++ e.2.1 ++ " " ++ pyDictStr e.2.2)

/-- Modelled from the spec: the record shape `get_edges` is documented to
return — "a record exposing `source`, `target`, `type`, and a `properties`
bag containing the remaining attributes" (also the shape `main.py` consumes:
`edge["source"]`, `edge["target"]`, `edge.get("type")`,
`edge.get("properties")`). -/
structure ClaimedEdgeRecord where
  source : String
  target : String
  type : Option String
  properties : Rel
deriving Repr, DecidableEq

/-! ### `Collector.get` (src/src/collector.py)

The fetcher and the sink's `save` are the external collaborators: both are
parameters that either succeed or raise (`Except.error msg` standing for a
raised exception with message `msg`).  `collector_get` returns the `results`
dictionary (or the uncaught exception) together with the number of times
`save_strategy.finalize()` ran. -/

structure RepoInfo where
  username : Option String
  owner : Option String
  repo : Option String
deriving Repr, DecidableEq

def validKeys (r : RepoInfo) : Bool :=
  r.username.isSome && r.owner.isSome && r.repo.isSome

def repoId (r : RepoInfo) : String :=
  r.owner.getD "" ++ "/" ++ r.repo.getD ""

/-- A tuple's entry in the results map: `{"success": True}` or
`{"error": str(e)}`. -/
inductive TupleResult where
  | success
  | error (msg : String)
deriving Repr, DecidableEq

/-- Saving the produced edges one at a time, stopping at the first failing
save. -/
def saveSeq (save : Edge → Except String Unit) : List Edge → Except String Unit
  | [] => .ok ()
  | e :: es =>
    match save e with
    | .error m => .error m
    | .ok _ => saveSeq save es

/-- The body of the per-tuple `try` block: fetch, then pull edges from the
factory's generator saving each; the first raised exception (fetch, save, or
the generator itself) becomes the recorded error.  A save failure on a
produced edge happens before the generator's own exception would be reached,
because edges are pulled one at a time. -/
def tupleOutcome (fetch : RepoInfo → Except String Payload)
    (save : Edge → Except String Unit) (since_iso until_iso : Option String)
    (r : RepoInfo) : TupleResult :=
  match fetch r with
  | .error m => .error m
  | .ok payload =>
    let run := (EdgeFactory.init payload (r.username.getD "")
      since_iso until_iso).generate_edges
    match saveSeq save run.1 with
    | .error m => .error m
    | .ok _ =>
      match run.2 with
      | some m => .error m
      | none => .success

/-- `results[repo_id] = v` on a Python dict: an existing key keeps its
position and gets the new value, a new key is appended. -/
def assocUpdate (acc : List (String × TupleResult)) (k : String)
    (v : TupleResult) : List (String × TupleResult) :=
  if (acc.lookup k).isSome then
    acc.map (fun p => if p.1 = k then (k, v) else p)
  else
    acc ++ [(k, v)]

/-- The `for repo_info in repos` loop.  A descriptor missing a required key
raises `ValueError` immediately (uncaught, so `finalize` never runs); when
the loop completes, `finalize()` runs once. -/
def collectorLoop (fetch : RepoInfo → Except String Payload)
    (save : Edge → Except String Unit) (since_iso until_iso : Option String) :
    List RepoInfo → List (String × TupleResult) →
      Except String (List (String × TupleResult)) × Nat
  | [], acc => (.ok acc, 1)
  | r :: rest, acc =>
    if validKeys r then
      collectorLoop fetch save since_iso until_iso rest
        (assocUpdate acc (repoId r)
          (tupleOutcome fetch save since_iso until_iso r))
    else
      (.error "Missing required keys in repository info", 0)

def collector_get (fetch : RepoInfo → Except String Payload)
    (save : Edge → Except String Unit) (since_iso until_iso : Option String)
    (repos : List RepoInfo) :
    Except String (List (String × TupleResult)) × Nat :=
  if repos.isEmpty then (.error "No repositories provided", 0)
  else collectorLoop fetch save since_iso until_iso repos []

/-! ### Spec-side decomposition of the extractor output

A `Block` describes one originating activity: the primary edge it emits, the
free-text body scanned for mentions, and the type/title the secondary
mention edges carry.  `blocks` lists, in the extractor's category-then-list
order, the blocks of a payload; the claim about mention edges is stated as:
the extractor's output is exactly the concatenation of the blocks, each
block being its originating edge immediately followed by one mention edge
per `@`-match of its body. -/

structure Block where
  orig : Edge
  body : String
  mtype : String
  mtitle : Option String
deriving Repr, DecidableEq

def mentionEdge (b : Block) (m : String) : Edge :=
  ⟨some b.mtype, b.mtitle, b.orig.created_at, some m, b.orig.url,
    b.orig.parent_url⟩

def blockEdges (b : Block) : List Edge :=
  b.orig :: (extract_mentioned_users b.body).map (mentionEdge b)

def issueBlock (username : String) (w : Option IssueNode) : Block :=
  let i := w.getD IssueNode.empty
  ⟨⟨some "issue_created", i.title, i.createdAt, some username, i.url, none⟩,
   i.bodyText.getD "", "issue_mentioned", i.title⟩

def issueCommentBlock (issue : ThreadNode) (c : CommentNode) : Block :=
  ⟨⟨some "issue_comment", issue.title, c.createdAt,
      (c.author.getD ⟨none⟩).login, c.url, issue.url⟩,
   c.bodyText.getD "", "issue_comment_mentioned", c.title⟩

def prBlock (username : String) (w : Option IssueNode) : Block :=
  let pr := w.getD IssueNode.empty
  ⟨⟨some "pr_created", pr.title, pr.createdAt, some username, pr.url, none⟩,
   pr.bodyText.getD "", "pr_mentioned", pr.title⟩

def prReviewBlock (username : String) (pr : PRNode) (review : ReviewNode) :
    Block :=
  ⟨⟨some ("pr_review_" ++ (review.state.getD "").toLower), pr.title,
      review.createdAt, some username, review.url, pr.url⟩,
   review.bodyText.getD "", "pr_comment_mentioned", pr.title⟩

def discussionBlock (username : String) (d : IssueNode) : Block :=
  ⟨⟨some "discussion_created", d.title, d.createdAt, some username,
      d.url, none⟩,
   d.bodyText.getD "", "discussion_mentioned", d.title⟩

def discussionCommentBlock (d : ThreadNode) (c : CommentNode) : Block :=
  ⟨⟨some "discussion_comment", d.title, c.createdAt,
      (c.author.getD ⟨none⟩).login, c.url, d.url⟩,
   c.bodyText.getD "", "discussion_comment_mentioned", d.title⟩

def blocks (d : Payload) (username : String) : List Block :=
  d.issuesCreated.items.map (issueBlock username)
  ++ d.issueComments.items.flatMap
      (fun t => t.comments.map (issueCommentBlock t))
  ++ d.prsCreated.items.map (prBlock username)
  ++ d.prReviewsAndCommits.items.flatMap (fun w =>
      let pr := w.getD PRNode.empty
      pr.reviews.map (prReviewBlock username pr))
  ++ d.discussionsCreated.items.map (discussionBlock username)
  ++ d.discussionComments.items.flatMap
      (fun t => t.comments.map (discussionCommentBlock t))

lemma issueItemEdges_eq_block (u : String) (w : Option IssueNode) :
    issueItemEdges u w = blockEdges (issueBlock u w) := rfl

lemma issueCommentEdges_eq_block (t : ThreadNode) (c : CommentNode) :
    issueCommentEdges t c = blockEdges (issueCommentBlock t c) := rfl

lemma prItemEdges_eq_block (u : String) (w : Option IssueNode) :
    prItemEdges u w = blockEdges (prBlock u w) := rfl

lemma prReviewEdges_eq_block (u : String) (pr : PRNode) (r : ReviewNode) :
    prReviewEdges u pr r = blockEdges (prReviewBlock u pr r) := rfl

lemma discussionItemEdges_eq_block (u : String) (d : IssueNode) :
    discussionItemEdges u d = blockEdges (discussionBlock u d) := rfl

lemma discussionCommentEdges_eq_block (d : ThreadNode) (c : CommentNode) :
    discussionCommentEdges d c = blockEdges (discussionCommentBlock d c) := rfl

lemma Slice.isOk_exists {α : Type} {s : Slice α} (h : s.isOk = true) :
    ∃ l, s = .ok l := by
  cases s with
  | malformed => simp [Slice.isOk] at h
  | ok l => exact ⟨l, rfl⟩

/-! ## Claim theorems -/

/-- C1: on a payload whose category slices are all well-typed, the
extractor's output is exactly the concatenation of per-activity blocks, each
block being its originating edge immediately followed by one mention edge
per `@`-mention match of the scanned body text (so `n` matches — duplicates
included — give exactly `n` additional edges), and every mention edge
carries the mentioned login as `source` and the originating edge's `target`
and `created_at`. -/
theorem C1_mention_edges (d : Payload) (u : String) (h : d.allOk = true) :
    generate_edges d u = ((blocks d u).flatMap blockEdges, none)
    ∧ ∀ b ∈ blocks d u,
        blockEdges b
            = b.orig :: (extract_mentioned_users b.body).map (mentionEdge b)
        ∧ (blockEdges b).length = 1 + (extract_mentioned_users b.body).length
        ∧ ∀ m : String,
            (mentionEdge b m).source = some m
            ∧ (mentionEdge b m).target = b.orig.target
            ∧ (mentionEdge b m).created_at = b.orig.created_at := by
  constructor
  · simp only [Payload.allOk, Bool.and_eq_true] at h
    obtain ⟨⟨⟨⟨⟨h1, h2⟩, h3⟩, h4⟩, h5⟩, h6⟩ := h
    obtain ⟨l1, e1⟩ := Slice.isOk_exists h1
    obtain ⟨l2, e2⟩ := Slice.isOk_exists h2
    obtain ⟨l3, e3⟩ := Slice.isOk_exists h3
    obtain ⟨l4, e4⟩ := Slice.isOk_exists h4
    obtain ⟨l5, e5⟩ := Slice.isOk_exists h5
    obtain ⟨l6, e6⟩ := Slice.isOk_exists h6
    simp [generate_edges, blocks, e1, e2, e3, e4, e5, e6, seqRun,
      process_issues, process_issue_comments, proccess_prs,
      process_pr_reviews, process_discussions, process_discussion_comments,
      Slice.items, List.flatMap_append, List.flatMap_map, List.flatMap_assoc,
      funext (issueItemEdges_eq_block u),
      fun t => funext (issueCommentEdges_eq_block t),
      funext (prItemEdges_eq_block u),
      fun pr => funext (prReviewEdges_eq_block u pr),
      funext (discussionItemEdges_eq_block u),
      fun t => funext (discussionCommentEdges_eq_block t)]
  · intro b _
    exact ⟨rfl, by simp [blockEdges, Nat.add_comm], fun m => ⟨rfl, rfl, rfl⟩⟩

def graphA : MGraph :=
  create_graph [[("source", some "alice"), ("target", some "https://x/1"),
    ("type", some "issue_created")]]

/-- C3: evaluation of `GraphAnalyzer.get_edges` on a one-edge graph.  The
implementation returns the raw `networkx.generate_edgelist` strings
(`"u v {attrs}"`), not records exposing `source`/`target`/`type`/
`properties` (the shape `ClaimedEdgeRecord`, which the method's own
docstring, its `List[Dict[str, Any]]` annotation and its caller `main.py`
expect). -/
theorem C3_get_edges_strings :
    analyzer_get_edges graphA
      = ["alice https://x/1 \x7b\x27type\x27: \x27issue_created\x27\x7d"] := by
  decide

/-- The end-to-end payload of spec §8: one created issue whose body mentions
`@bob`. -/
def payload1 : Payload :=
  ⟨.ok [some ⟨some "Fix bug", some "https://x/1", some "2024-01-01",
      some "cc @bob"⟩],
   .ok [], .ok [], .ok [], .ok [], .ok []⟩

def goodRel (rel : Rel) : Bool :=
  truthy (relGet rel "source") && truthy (relGet rel "target")

lemma addNode_edges (g : MGraph) (n : String) (b : Nat) :
    (addNode g n b).edges = g.edges := by
  cases h : (g.nodes.lookup n).isSome <;> simp [addNode, h]

lemma graphStep_not_good {rel : Rel} (h : goodRel rel = false) (g : MGraph) :
    graphStep g rel = g := by
  simp only [goodRel] at h
  simp [graphStep, h]

/-- C4: the graph builder skips every record whose `source` or `target` is
missing or empty — the built graph equals the graph built from the filtered
stream — and in particular `[{type: "x"}]` yields the empty graph (0 nodes,
0 edges). -/
theorem C4_skip_bad :
    (∀ rels : List Rel,
        create_graph rels = create_graph (rels.filter goodRel))
    ∧ create_graph [[("type", some "x")]] = ⟨[], []⟩ := by
  constructor
  · intro rels
    suffices h : ∀ g, List.foldl graphStep g rels
        = List.foldl graphStep g (rels.filter goodRel) from h _
    induction rels with
    | nil => intro g; rfl
    | cons r rs ih =>
      intro g
      by_cases hr : goodRel r = true
      · simp [List.filter_cons, hr, ih]
      · have hr' : goodRel r = false := by
          revert hr; cases goodRel r <;> simp
        simp [List.filter_cons, hr', graphStep_not_good hr', ih]
  · decide

/-- C5: multigraph semantics — two records with the same (nonempty) source
and target yield two parallel edges between that pair, each retaining its
own attributes. -/
theorem C5_multigraph (s t : String) (hs : s ≠ "") (ht : t ≠ "")
    (a1 a2 : Rel) :
    (create_graph
        [("source", some s) :: ("target", some t) :: a1,
         ("source", some s) :: ("target", some t) :: a2]).edges
      = [(s, t, stripST (("source", some s) :: ("target", some t) :: a1)),
         (s, t, stripST (("source", some s) :: ("target", some t) :: a2))]
    ∧ (edgesBetween (create_graph
        [("source", some s) :: ("target", some t) :: a1,
         ("source", some s) :: ("target", some t) :: a2]) s t).length = 2 := by
  have hgood : ∀ a : Rel,
      relGet (("source", some s) :: ("target", some t) :: a) "source" = some s
      ∧ relGet (("source", some s) :: ("target", some t) :: a) "target"
          = some t := by
    intro a
    constructor <;> simp [relGet, List.lookup]
  have hedges : (create_graph
      [("source", some s) :: ("target", some t) :: a1,
       ("source", some s) :: ("target", some t) :: a2]).edges
      = [(s, t, stripST (("source", some s) :: ("target", some t) :: a1)),
         (s, t, stripST (("source", some s) :: ("target", some t) :: a2))] := by
    simp [create_graph, graphStep, (hgood a1).1, (hgood a1).2,
      (hgood a2).1, (hgood a2).2, truthy, hs, ht, addNode_edges, addEdge]
  refine ⟨hedges, ?_⟩
  simp [edgesBetween, hedges]

/-- Witness for C5: two records `alice → https://x/1` with types `a` and
`b`. -/
theorem C5_multigraph_witness :
    ("alice" ≠ "") ∧ ("https://x/1" ≠ "")
    ∧ ((create_graph
          [("source", some "alice") :: ("target", some "https://x/1")
              :: [("type", some "a")],
           ("source", some "alice") :: ("target", some "https://x/1")
              :: [("type", some "b")]]).edges
        = [("alice", "https://x/1",
              stripST (("source", some "alice")
                :: ("target", some "https://x/1") :: [("type", some "a")])),
           ("alice", "https://x/1",
              stripST (("source", some "alice")
                :: ("target", some "https://x/1") :: [("type", some "b")]))]
       ∧ (edgesBetween (create_graph
            [("source", some "alice") :: ("target", some "https://x/1")
                :: [("type", some "a")],
             ("source", some "alice") :: ("target", some "https://x/1")
                :: [("type", some "b")]]) "alice" "https://x/1").length = 2) :=
  ⟨by decide, by decide,
    C5_multigraph "alice" "https://x/1" (by decide) (by decide)
      [("type", some "a")] [("type", some "b")]⟩

def emptyEdge : Edge := ⟨none, none, none, none, none, none⟩

/-- C2 counterexample: the claim quantifies over *any* Edge, but an Edge
whose fields are all absent serializes to a record the builder skips, so the
built graph has no edge at all (and no nodes) — not "exactly one edge
between source and target". -/
theorem C2_counterexample :
    (create_graph [Edge.to_row emptyEdge]).edges = []
    ∧ (create_graph [Edge.to_row emptyEdge]).nodes = [] := by decide

/-- C2 (amended): for any Edge whose serialized `source` and `target` are
present and nonempty, building from `[e.to_row()]` produces exactly one edge
between them, carrying a `type` attribute equal to the row's `type`. -/
theorem C2_roundtrip (e : Edge) (s t : String)
    (hs : e.source = some s) (hs' : s ≠ "")
    (ht : e.target = some t) (ht' : t ≠ "") :
    (edgesBetween (create_graph [e.to_row]) s t).length = 1
    ∧ ∀ ed ∈ edgesBetween (create_graph [e.to_row]) s t,
        relGet ed.2.2 "type" = e.type := by
  have h1 : relGet e.to_row "source" = some s := by
    simp [relGet, Edge.to_row, List.lookup, hs]
  have h2 : relGet e.to_row "target" = some t := by
    simp [relGet, Edge.to_row, List.lookup, ht]
  have hedges : (create_graph [e.to_row]).edges
      = [(s, t, stripST e.to_row)] := by
    simp [create_graph, graphStep, h1, h2, truthy, hs', ht',
      addNode_edges, addEdge]
  constructor
  · simp [edgesBetween, hedges]
  · intro ed hed
    simp [edgesBetween, hedges] at hed
    subst hed
    simp [stripST, Edge.to_row, relGet, List.lookup]

def edgeA : Edge :=
  ⟨some "issue_created", none, none, some "alice", some "https://x/1", none⟩

/-- Witness for C2 at a concrete `issue_created` edge. -/
theorem C2_roundtrip_witness :
    Edge.source edgeA = some "alice"
    ∧ Edge.target edgeA = some "https://x/1"
    ∧ ((edgesBetween (create_graph [edgeA.to_row])
          "alice" "https://x/1").length = 1
       ∧ ∀ ed ∈ edgesBetween (create_graph [edgeA.to_row])
            "alice" "https://x/1",
          relGet ed.2.2 "type" = edgeA.type) :=
  ⟨rfl, rfl,
    C2_roundtrip edgeA "alice" "https://x/1" rfl (by decide) rfl (by decide)⟩

/-- The four comment-like edge types of the claim: `issue_comment`,
`discussion_comment`, and their mention variants. -/
def isCommentLike (t : Option String) : Bool :=
  t == some "issue_comment" || t == some "issue_comment_mentioned" ||
  t == some "discussion_comment" || t == some "discussion_comment_mentioned"

lemma truthy_ne_none {x : Option String} (h : truthy x = true) : x ≠ none := by
  cases x <;> simp_all [truthy]

lemma Edge.target_of_parent_none {e : Edge} (h : e.parent_url = none) :
    e.target = e.url := by
  simp [Edge.target, h, truthy]

lemma Edge.target_of_parent_truthy {e : Edge}
    (h : truthy e.parent_url = true) : e.target = e.parent_url := by
  simp [Edge.target, h]

lemma take10_append (x : String) :
    ("pr_review_".data ++ x.data).take 10 = "pr_review_".data := by
  have h := List.take_left "pr_review_".data x.data
  have hl : "pr_review_".data.length = 10 := by decide
  rw [hl] at h
  exact h

/-- No `pr_review_<state>` type string coincides with a string that does not
start with `pr_review_`. -/
lemma pr_review_ne (x t : String) (h : t.data.take 10 ≠ "pr_review_".data) :
    "pr_review_" ++ x ≠ t := by
  intro he
  apply h
  rw [← he, String.data_append, take10_append]

lemma isCommentLike_pr_review (x : String) :
    isCommentLike (some ("pr_review_" ++ x)) = false := by
  simp only [isCommentLike, Bool.or_eq_false_iff, beq_eq_false_iff_ne, ne_eq,
    Option.some.injEq]
  exact ⟨⟨⟨pr_review_ne x _ (by decide), pr_review_ne x _ (by decide)⟩,
    pr_review_ne x _ (by decide)⟩, pr_review_ne x _ (by decide)⟩

lemma mem_seqRun {e : Edge} {a b : Run} (h : e ∈ (seqRun a b).1) :
    e ∈ a.1 ∨ e ∈ b.1 := by
  rcases a with ⟨es, exc⟩
  cases exc <;> simp_all [seqRun]

lemma mem_generate_edges {e : Edge} {d : Payload} {u : String}
    (h : e ∈ (generate_edges d u).1) :
    e ∈ (process_issues d.issuesCreated u).1
    ∨ e ∈ (process_issue_comments d.issueComments).1
    ∨ e ∈ (proccess_prs d.prsCreated u).1
    ∨ e ∈ (process_pr_reviews d.prReviewsAndCommits u).1
    ∨ e ∈ (process_discussions d.discussionsCreated u).1
    ∨ e ∈ (process_discussion_comments d.discussionComments).1 := by
  unfold generate_edges at h
  rcases mem_seqRun h with h | h
  · exact Or.inl h
  rcases mem_seqRun h with h | h
  · exact Or.inr (Or.inl h)
  rcases mem_seqRun h with h | h
  · exact Or.inr (Or.inr (Or.inl h))
  rcases mem_seqRun h with h | h
  · exact Or.inr (Or.inr (Or.inr (Or.inl h)))
  rcases mem_seqRun h with h | h
  · exact Or.inr (Or.inr (Or.inr (Or.inr (Or.inl h))))
  · exact Or.inr (Or.inr (Or.inr (Or.inr (Or.inr h))))

lemma mem_process_issues {e : Edge} {s : Slice (Option IssueNode)}
    {u : String} (h : e ∈ (process_issues s u).1) :
    ∃ w ∈ s.items, e ∈ issueItemEdges u w := by
  cases s with
  | malformed => simp [process_issues] at h
  | ok items =>
    simp only [process_issues, List.mem_flatMap] at h
    simpa [Slice.items] using h

lemma mem_process_issue_comments {e : Edge} {s : Slice ThreadNode}
    (h : e ∈ (process_issue_comments s).1) :
    ∃ t ∈ s.items, ∃ c ∈ t.comments, e ∈ issueCommentEdges t c := by
  cases s with
  | malformed => simp [process_issue_comments] at h
  | ok items =>
    simp only [process_issue_comments, List.mem_flatMap] at h
    simpa [Slice.items] using h

lemma mem_proccess_prs {e : Edge} {s : Slice (Option IssueNode)} {u : String}
    (h : e ∈ (proccess_prs s u).1) :
    ∃ w ∈ s.items, e ∈ prItemEdges u w := by
  cases s with
  | malformed => simp [proccess_prs] at h
  | ok items =>
    simp only [proccess_prs, List.mem_flatMap] at h
    simpa [Slice.items] using h

lemma mem_process_pr_reviews {e : Edge} {s : Slice (Option PRNode)}
    {u : String} (h : e ∈ (process_pr_reviews s u).1) :
    ∃ w ∈ s.items, ∃ r ∈ (w.getD PRNode.empty).reviews,
      e ∈ prReviewEdges u (w.getD PRNode.empty) r := by
  cases s with
  | malformed => simp [process_pr_reviews] at h
  | ok items =>
    simp only [process_pr_reviews, List.mem_flatMap] at h
    simpa [Slice.items] using h

lemma mem_process_discussions {e : Edge} {s : Slice IssueNode} {u : String}
    (h : e ∈ (process_discussions s u).1) :
    ∃ n ∈ s.items, e ∈ discussionItemEdges u n := by
  cases s with
  | malformed => simp [process_discussions] at h
  | ok items =>
    simp only [process_discussions, List.mem_flatMap] at h
    simpa [Slice.items] using h

lemma mem_process_discussion_comments {e : Edge} {s : Slice ThreadNode}
    (h : e ∈ (process_discussion_comments s).1) :
    ∃ t ∈ s.items, ∃ c ∈ t.comments, e ∈ discussionCommentEdges t c := by
  cases s with
  | malformed => simp [process_discussion_comments] at h
  | ok items =>
    simp only [process_discussion_comments, List.mem_flatMap] at h
    simpa [Slice.items] using h

lemma mem_issueItemEdges {e : Edge} {u : String} {w : Option IssueNode}
    (h : e ∈ issueItemEdges u w) :
    e.parent_url = none
    ∧ (e.type = some "issue_created" ∨ e.type = some "issue_mentioned") := by
  simp only [issueItemEdges, List.mem_cons, List.mem_map] at h
  rcases h with h | ⟨m, _, h⟩ <;> subst h <;> simp

lemma mem_prItemEdges {e : Edge} {u : String} {w : Option IssueNode}
    (h : e ∈ prItemEdges u w) :
    e.parent_url = none
    ∧ (e.type = some "pr_created" ∨ e.type = some "pr_mentioned") := by
  simp only [prItemEdges, List.mem_cons, List.mem_map] at h
  rcases h with h | ⟨m, _, h⟩ <;> subst h <;> simp

lemma mem_discussionItemEdges {e : Edge} {u : String} {n : IssueNode}
    (h : e ∈ discussionItemEdges u n) :
    e.parent_url = none
    ∧ (e.type = some "discussion_created"
        ∨ e.type = some "discussion_mentioned") := by
  simp only [discussionItemEdges, List.mem_cons, List.mem_map] at h
  rcases h with h | ⟨m, _, h⟩ <;> subst h <;> simp

lemma mem_issueCommentEdges {e : Edge} {t : ThreadNode} {c : CommentNode}
    (h : e ∈ issueCommentEdges t c) :
    e.parent_url = t.url
    ∧ (e.type = some "issue_comment"
        ∨ e.type = some "issue_comment_mentioned") := by
  simp only [issueCommentEdges, List.mem_cons, List.mem_map] at h
  rcases h with h | ⟨m, _, h⟩ <;> subst h <;> simp

lemma mem_discussionCommentEdges {e : Edge} {t : ThreadNode} {c : CommentNode}
    (h : e ∈ discussionCommentEdges t c) :
    e.parent_url = t.url
    ∧ (e.type = some "discussion_comment"
        ∨ e.type = some "discussion_comment_mentioned") := by
  simp only [discussionCommentEdges, List.mem_cons, List.mem_map] at h
  rcases h with h | ⟨m, _, h⟩ <;> subst h <;> simp

lemma mem_prReviewEdges {e : Edge} {u : String} {pr : PRNode} {r : ReviewNode}
    (h : e ∈ prReviewEdges u pr r) :
    e.parent_url = pr.url
    ∧ ((∃ x, e.type = some ("pr_review_" ++ x))
        ∨ e.type = some "pr_comment_mentioned") := by
  simp only [prReviewEdges, List.mem_cons, List.mem_map] at h
  rcases h with h | ⟨m, _, h⟩ <;> subst h <;> simp

/-- C6 (amended): provided every parent issue/discussion in the payload's
comment categories carries a present, nonempty `url`, every comment-like
edge the extractor yields has a non-null `target()`; and every `created`
edge's `target()` equals its own `url()` — the created object's URL. -/
theorem C6_target_invariant (d : Payload) (u : String)
    (hIs : ∀ t ∈ d.issueComments.items, truthy t.url = true)
    (hDs : ∀ t ∈ d.discussionComments.items, truthy t.url = true) :
    (∀ e ∈ (generate_edges d u).1,
        isCommentLike e.type = true → e.source ≠ none → e.target ≠ none)
    ∧ (∀ e ∈ (generate_edges d u).1,
        (e.type = some "issue_created" ∨ e.type = some "pr_created"
          ∨ e.type = some "discussion_created") →
        e.target = e.url) := by
  constructor
  · intro e he hcl _
    rcases mem_generate_edges he with h | h | h | h | h | h
    · obtain ⟨w, -, hw⟩ := mem_process_issues h
      rcases (mem_issueItemEdges hw).2 with hty | hty <;>
        simp [isCommentLike, hty] at hcl
    · obtain ⟨t, ht, c, -, hc⟩ := mem_process_issue_comments h
      have hp := (mem_issueCommentEdges hc).1
      have htr : truthy e.parent_url = true := by rw [hp]; exact hIs t ht
      rw [Edge.target_of_parent_truthy htr, hp]
      exact truthy_ne_none (hIs t ht)
    · obtain ⟨w, -, hw⟩ := mem_proccess_prs h
      rcases (mem_prItemEdges hw).2 with hty | hty <;>
        simp [isCommentLike, hty] at hcl
    · obtain ⟨w, -, r, -, hr⟩ := mem_process_pr_reviews h
      rcases (mem_prReviewEdges hr).2 with ⟨x, hty⟩ | hty
      · rw [hty, isCommentLike_pr_review] at hcl
        exact absurd hcl (by simp)
      · simp [isCommentLike, hty] at hcl
    · obtain ⟨n, -, hn⟩ := mem_process_discussions h
      rcases (mem_discussionItemEdges hn).2 with hty | hty <;>
        simp [isCommentLike, hty] at hcl
    · obtain ⟨t, ht, c, -, hc⟩ := mem_process_discussion_comments h
      have hp := (mem_discussionCommentEdges hc).1
      have htr : truthy e.parent_url = true := by rw [hp]; exact hDs t ht
      rw [Edge.target_of_parent_truthy htr, hp]
      exact truthy_ne_none (hDs t ht)
  · intro e he hty
    rcases mem_generate_edges he with h | h | h | h | h | h
    · obtain ⟨w, -, hw⟩ := mem_process_issues h
      exact Edge.target_of_parent_none (mem_issueItemEdges hw).1
    · obtain ⟨t, -, c, -, hc⟩ := mem_process_issue_comments h
      rcases (mem_issueCommentEdges hc).2 with h2 | h2 <;>
        rcases hty with hty | hty | hty <;> rw [h2] at hty <;> simp at hty
    · obtain ⟨w, -, hw⟩ := mem_proccess_prs h
      exact Edge.target_of_parent_none (mem_prItemEdges hw).1
    · obtain ⟨w, -, r, -, hr⟩ := mem_process_pr_reviews h
      rcases (mem_prReviewEdges hr).2 with ⟨x, h2⟩ | h2
      · rcases hty with hty | hty | hty <;> rw [h2] at hty <;>
          exact absurd (Option.some.inj hty) (pr_review_ne x _ (by decide))
      · rcases hty with hty | hty | hty <;> rw [h2] at hty <;> simp at hty
    · obtain ⟨n, -, hn⟩ := mem_process_discussions h
      exact Edge.target_of_parent_none (mem_discussionItemEdges hn).1
    · obtain ⟨t, -, c, -, hc⟩ := mem_process_discussion_comments h
      rcases (mem_discussionCommentEdges hc).2 with h2 | h2 <;>
        rcases hty with hty | hty | hty <;> rw [h2] at hty <;> simp at hty

/-- A parent issue whose `url` is absent from the payload, with one comment
(also without a `url`) authored by `alice`. -/
def badThread : ThreadNode :=
  ⟨none, none, [⟨none, none, none, none, some ⟨some "alice"⟩⟩]⟩

def c6Payload : Payload :=
  ⟨.ok [], .ok [badThread], .ok [], .ok [], .ok [], .ok []⟩

def c6Edge : Edge :=
  ⟨some "issue_comment", none, none, some "alice", none, none⟩

/-- C6 counterexample: on a payload whose parent issue lacks a `url`, the
extractor yields a comment-like edge whose `source()` is non-null but whose
`target()` is null — the claim as stated, quantified over every payload,
fails. -/
theorem C6_counterexample :
    (generate_edges c6Payload "bob").1 = [c6Edge]
    ∧ isCommentLike c6Edge.type = true
    ∧ Edge.source c6Edge = some "alice"
    ∧ Edge.target c6Edge = none := by decide

def goodThread : ThreadNode :=
  ⟨some "T", some "https://x/9",
   [⟨none, some "https://x/9#c1", some "2024-01-02", some "hi @bob",
      some ⟨some "carol"⟩⟩]⟩

def c6GoodPayload : Payload :=
  ⟨.ok [], .ok [goodThread], .ok [], .ok [], .ok [], .ok [goodThread]⟩

/-- Witness for C6 on a payload whose parent threads carry urls. -/
theorem C6_target_invariant_witness :
    (∀ t ∈ c6GoodPayload.issueComments.items, truthy t.url = true)
    ∧ (∀ t ∈ c6GoodPayload.discussionComments.items, truthy t.url = true)
    ∧ ((∀ e ∈ (generate_edges c6GoodPayload "bob").1,
          isCommentLike e.type = true → e.source ≠ none → e.target ≠ none)
       ∧ (∀ e ∈ (generate_edges c6GoodPayload "bob").1,
          (e.type = some "issue_created" ∨ e.type = some "pr_created"
            ∨ e.type = some "discussion_created") →
          e.target = e.url)) :=
  ⟨by decide, by decide,
    C6_target_invariant c6GoodPayload "bob" (by decide) (by decide)⟩

/-- C9 (amended): a malformed category slice aborts `generate_edges` at that
category — the enumerated sequence is exactly the concatenation of the
edges of the (well-typed) categories that come before it in the fixed
category order, followed by the raised error; categories after the
malformed one contribute nothing. -/
theorem C9_malformed_aborts (d : Payload) (u : String) :
    (d.issuesCreated = .malformed →
      generate_edges d u = ([], some "TypeError"))
    ∧ (d.issuesCreated.isOk = true → d.issueComments = .malformed →
      generate_edges d u
        = ((process_issues d.issuesCreated u).1, some "TypeError"))
    ∧ (d.issuesCreated.isOk = true → d.issueComments.isOk = true →
       d.prsCreated = .malformed →
      generate_edges d u
        = ((process_issues d.issuesCreated u).1
            ++ (process_issue_comments d.issueComments).1, some "TypeError"))
    ∧ (d.issuesCreated.isOk = true → d.issueComments.isOk = true →
       d.prsCreated.isOk = true → d.prReviewsAndCommits = .malformed →
      generate_edges d u
        = ((process_issues d.issuesCreated u).1
            ++ (process_issue_comments d.issueComments).1
            ++ (proccess_prs d.prsCreated u).1, some "TypeError"))
    ∧ (d.issuesCreated.isOk = true → d.issueComments.isOk = true →
       d.prsCreated.isOk = true → d.prReviewsAndCommits.isOk = true →
       d.discussionsCreated = .malformed →
      generate_edges d u
        = ((process_issues d.issuesCreated u).1
            ++ (process_issue_comments d.issueComments).1
            ++ (proccess_prs d.prsCreated u).1
            ++ (process_pr_reviews d.prReviewsAndCommits u).1,
           some "TypeError"))
    ∧ (d.issuesCreated.isOk = true → d.issueComments.isOk = true →
       d.prsCreated.isOk = true → d.prReviewsAndCommits.isOk = true →
       d.discussionsCreated.isOk = true → d.discussionComments = .malformed →
      generate_edges d u
        = ((process_issues d.issuesCreated u).1
            ++ (process_issue_comments d.issueComments).1
            ++ (proccess_prs d.prsCreated u).1
            ++ (process_pr_reviews d.prReviewsAndCommits u).1
            ++ (process_discussions d.discussionsCreated u).1,
           some "TypeError")) := by
  refine ⟨?_, ?_, ?_, ?_, ?_, ?_⟩
  · intro hm
    simp [generate_edges, hm, seqRun, process_issues]
  · intro h1 hm
    obtain ⟨l1, e1⟩ := Slice.isOk_exists h1
    simp [generate_edges, e1, hm, seqRun, process_issues,
      process_issue_comments]
  · intro h1 h2 hm
    obtain ⟨l1, e1⟩ := Slice.isOk_exists h1
    obtain ⟨l2, e2⟩ := Slice.isOk_exists h2
    simp [generate_edges, e1, e2, hm, seqRun, process_issues,
      process_issue_comments, proccess_prs]
  · intro h1 h2 h3 hm
    obtain ⟨l1, e1⟩ := Slice.isOk_exists h1
    obtain ⟨l2, e2⟩ := Slice.isOk_exists h2
    obtain ⟨l3, e3⟩ := Slice.isOk_exists h3
    simp [generate_edges, e1, e2, e3, hm, seqRun, process_issues,
      process_issue_comments, proccess_prs, process_pr_reviews]
  · intro h1 h2 h3 h4 hm
    obtain ⟨l1, e1⟩ := Slice.isOk_exists h1
    obtain ⟨l2, e2⟩ := Slice.isOk_exists h2
    obtain ⟨l3, e3⟩ := Slice.isOk_exists h3
    obtain ⟨l4, e4⟩ := Slice.isOk_exists h4
    simp [generate_edges, e1, e2, e3, e4, hm, seqRun, process_issues,
      process_issue_comments, proccess_prs, process_pr_reviews,
      process_discussions]
  · intro h1 h2 h3 h4 h5 hm
    obtain ⟨l1, e1⟩ := Slice.isOk_exists h1
    obtain ⟨l2, e2⟩ := Slice.isOk_exists h2
    obtain ⟨l3, e3⟩ := Slice.isOk_exists h3
    obtain ⟨l4, e4⟩ := Slice.isOk_exists h4
    obtain ⟨l5, e5⟩ := Slice.isOk_exists h5
    simp [generate_edges, e1, e2, e3, e4, e5, hm, seqRun, process_issues,
      process_issue_comments, proccess_prs, process_pr_reviews,
      process_discussions, process_discussion_comments]

/-- A payload whose first category is malformed while `discussionsCreated`
is well-formed and nonempty. -/
def c9Payload : Payload :=
  ⟨.malformed, .ok [], .ok [], .ok [],
   .ok [⟨some "T", some "https://x/d", some "2024-01-03", some ""⟩], .ok []⟩

/-- C9 counterexample: with `issuesCreated` malformed, the full enumeration
yields no edges at all even though the well-formed `discussionsCreated`
category on its own yields an edge — one malformed category does block the
others. -/
theorem C9_counterexample :
    (generate_edges c9Payload "alice").1 = []
    ∧ (process_discussions c9Payload.discussionsCreated "alice").1 ≠ [] := by
  decide

def c9Payload2 : Payload :=
  ⟨.ok [some ⟨some "A", some "https://x/2", some "2024-01-04", some ""⟩],
   .ok [], .malformed, .ok [], .ok [], .ok []⟩

/-- Witness for C9 with `prsCreated` malformed: the two earlier categories'
edges are kept, the error ends the stream. -/
theorem C9_malformed_aborts_witness :
    c9Payload2.issuesCreated.isOk = true
    ∧ c9Payload2.issueComments.isOk = true
    ∧ c9Payload2.prsCreated = .malformed
    ∧ generate_edges c9Payload2 "alice"
        = ((process_issues c9Payload2.issuesCreated "alice").1
            ++ (process_issue_comments c9Payload2.issueComments).1,
           some "TypeError") :=
  ⟨rfl, rfl, rfl,
    ((C9_malformed_aborts c9Payload2 "alice").2.2.1) rfl rfl rfl⟩

/-- C10: the extractor's output does not depend on the date-window
arguments — two factories over the same payload and username but different
(valid) `since_iso`/`until_iso` pairs generate identical edge sequences;
the dates are parsed and stored at construction but never applied. -/
theorem C10_date_window_independence (d : Payload) (u : String)
    (s1 t1 s2 t2 : Option String) :
    (EdgeFactory.init d u s1 t1).generate_edges
      = (EdgeFactory.init d u s2 t2).generate_edges
    ∧ (EdgeFactory.init d u s1 t1).since_date = s1.map parseIso
    ∧ (EdgeFactory.init d u s1 t1).until_date = t1.map parseIso :=
  ⟨rfl, rfl, rfl⟩

lemma lookup_append_none {l1 l2 : List (String × TupleResult)} {k : String}
    (h : l1.lookup k = none) : (l1 ++ l2).lookup k = l2.lookup k := by
  induction l1 with
  | nil => simp
  | cons p l ih =>
    rcases p with ⟨a, b⟩
    by_cases hk : k == a
    · simp [List.lookup, hk] at h
    · simp only [List.lookup, List.cons_append, hk] at h ⊢
      exact ih h

lemma lookup_singleton_ne {k a : String} {b : TupleResult} (h : k ≠ a) :
    ([(a, b)] : List (String × TupleResult)).lookup k = none := by
  have hb : (k == a) = false := beq_eq_false_iff_ne.mpr h
  simp [List.lookup, hb]

lemma collectorLoop_spec (fetch : RepoInfo → Except String Payload)
    (save : Edge → Except String Unit) (si ui : Option String) :
    ∀ (repos : List RepoInfo) (acc : List (String × TupleResult)),
      (∀ r ∈ repos, validKeys r = true) →
      (repos.map repoId).Nodup →
      (∀ r ∈ repos, acc.lookup (repoId r) = none) →
      collectorLoop fetch save si ui repos acc
        = (.ok (acc ++ repos.map
            (fun r => (repoId r, tupleOutcome fetch save si ui r))), 1) := by
  intro repos
  induction repos with
  | nil => intro acc _ _ _; simp [collectorLoop]
  | cons r rest ih =>
    intro acc hv hn hl
    have hvr : validKeys r = true := hv r (by simp)
    have hnone : acc.lookup (repoId r) = none := hl r (by simp)
    have hupd : assocUpdate acc (repoId r)
        (tupleOutcome fetch save si ui r)
        = acc ++ [(repoId r, tupleOutcome fetch save si ui r)] := by
      simp [assocUpdate, hnone]
    have hn' : (∀ x ∈ rest, ¬repoId x = repoId r)
        ∧ (List.map repoId rest).Nodup := by simpa using hn
    simp only [collectorLoop, hvr, if_true, hupd]
    rw [ih]
    · simp
    · intro x hx; exact hv x (by simp [hx])
    · exact hn'.2
    · intro x hx
      have h2 : repoId x ≠ repoId r := by
        intro he
        exact hn'.1 x hx he
      rw [lookup_append_none (hl x (by simp [hx]))]
      exact lookup_singleton_ne h2

/-- C7 (amended): for a non-empty list of valid repository descriptors with
pairwise-distinct `owner/repo` identifiers, `Collector.get` returns without
raising and its results map holds, for every tuple in order, the entry
`(owner/repo, outcome)` — `outcome` being the per-tuple result in which any
exception of fetch, extraction or save was caught and recorded as an error
value, so a per-tuple failure is never fatal. -/
theorem C7_per_tuple_isolation (fetch : RepoInfo → Except String Payload)
    (save : Edge → Except String Unit) (si ui : Option String)
    (repos : List RepoInfo)
    (hne : repos ≠ [])
    (hv : ∀ r ∈ repos, validKeys r = true)
    (hn : (repos.map repoId).Nodup) :
    (collector_get fetch save si ui repos).1
      = .ok (repos.map
          (fun r => (repoId r, tupleOutcome fetch save si ui r))) := by
  have hne' : repos.isEmpty = false := by
    cases repos with
    | nil => exact absurd rfl hne
    | cons a l => rfl
  rw [collector_get, hne']
  simp only [Bool.false_eq_true, if_false]
  rw [collectorLoop_spec fetch save si ui repos [] hv hn (by intro r _; rfl)]
  simp

def repoR1 : RepoInfo := ⟨some "alice", some "o1", some "r1"⟩
def repoR2 : RepoInfo := ⟨some "alice", some "o2", some "r2"⟩
def repoDup2 : RepoInfo := ⟨some "bob", some "o1", some "r1"⟩
def invalidRepo : RepoInfo := ⟨some "alice", none, none⟩

def fetchFailAlice : RepoInfo → Except String Payload := fun r =>
  if r.username = some "alice" then .error "boom" else .ok Payload.empty

def fetchFailO1 : RepoInfo → Except String Payload := fun r =>
  if r.owner = some "o1" then .error "boom" else .ok Payload.empty

def saveAlways : Edge → Except String Unit := fun _ => .ok ()

/-- C7 counterexample: two accepted tuples share the `owner/repo` key
`o1/r1`; the first tuple's fetch raises and its error is recorded, but the
second tuple's success overwrites the same dictionary key, so the returned
summary does not preserve the error entry of the first tuple. -/
theorem C7_counterexample :
    tupleOutcome fetchFailAlice saveAlways none none repoR1 = .error "boom"
    ∧ (collector_get fetchFailAlice saveAlways none none [repoR1, repoDup2]).1
        = .ok [("o1/r1", .success)] := ⟨rfl, rfl⟩

/-- Witness for C7: two distinct repositories, the first of which fails to
fetch. -/
theorem C7_per_tuple_isolation_witness :
    ([repoR1, repoR2] ≠ ([] : List RepoInfo))
    ∧ (∀ r ∈ [repoR1, repoR2], validKeys r = true)
    ∧ ([repoR1, repoR2].map repoId).Nodup
    ∧ (collector_get fetchFailO1 saveAlways none none [repoR1, repoR2]).1
        = .ok ([repoR1, repoR2].map
            (fun r =>
              (repoId r, tupleOutcome fetchFailO1 saveAlways none none r))) :=
  ⟨by decide, by decide, by decide,
    C7_per_tuple_isolation fetchFailO1 saveAlways none none [repoR1, repoR2]
      (by decide) (by decide) (by decide)⟩

/-- C8 counterexample: a non-empty repository list containing a descriptor
that fails key validation — the `ValueError` propagates out of the loop and
`finalize()` is never called (0 times, not exactly once). -/
theorem C8_counterexample :
    (collector_get fetchFailO1 saveAlways none none [repoR1, invalidRepo]).2
      = 0 := rfl

/-- C8 (amended): for a non-empty list of descriptors that all pass key
validation, `finalize()` runs exactly once, after the whole list, even when
tuples fail to fetch/extract/save; but a descriptor failing validation
aborts the run before `finalize()` is reached. -/
theorem C8_finalize_always (fetch : RepoInfo → Except String Payload)
    (save : Edge → Except String Unit) (si ui : Option String)
    (repos : List RepoInfo)
    (hne : repos ≠ [])
    (hv : ∀ r ∈ repos, validKeys r = true) :
    (collector_get fetch save si ui repos).2 = 1 := by
  have hloop : ∀ (rs : List RepoInfo) (acc : List (String × TupleResult)),
      (∀ r ∈ rs, validKeys r = true) →
      (collectorLoop fetch save si ui rs acc).2 = 1 := by
    intro rs
    induction rs with
    | nil => intro acc _; rfl
    | cons r rest ih =>
      intro acc hv'
      have hvr : validKeys r = true := hv' r (by simp)
      simp only [collectorLoop, hvr, if_true]
      exact ih _ (fun x hx => hv' x (by simp [hx]))
  have hne' : repos.isEmpty = false := by
    cases repos with
    | nil => exact absurd rfl hne
    | cons a l => rfl
  rw [collector_get, hne']
  simp only [Bool.false_eq_true, if_false]
  exact hloop repos [] hv

/-- Witness for C8: a failing fetch on the first tuple does not prevent the
single `finalize()` call. -/
theorem C8_finalize_always_witness :
    ([repoR1, repoR2] ≠ ([] : List RepoInfo))
    ∧ (∀ r ∈ [repoR1, repoR2], validKeys r = true)
    ∧ (collector_get fetchFailO1 saveAlways none none [repoR1, repoR2]).2
        = 1 :=
  ⟨by decide, by decide,
    C8_finalize_always fetchFailO1 saveAlways none none [repoR1, repoR2]
      (by decide) (by decide)⟩

/-- Witness for C1 at `payload1` / `alice`. -/
theorem C1_mention_edges_witness :
    Payload.allOk payload1 = true
    ∧ (generate_edges payload1 "alice"
          = ((blocks payload1 "alice").flatMap blockEdges, none)
       ∧ ∀ b ∈ blocks payload1 "alice",
          blockEdges b
              = b.orig :: (extract_mentioned_users b.body).map (mentionEdge b)
          ∧ (blockEdges b).length
              = 1 + (extract_mentioned_users b.body).length
          ∧ ∀ m : String,
              (mentionEdge b m).source = some m
              ∧ (mentionEdge b m).target = b.orig.target
              ∧ (mentionEdge b m).created_at = b.orig.created_at) :=
  ⟨rfl, C1_mention_edges payload1 "alice" rfl⟩

end GH
